import Mathlib

/-!
Verification development for the adolphus fuzzy camera-coverage engine.

The Python modules `coverage.py` (Camera, MultiCamera) and `laser.py`
(RangeModel) are shallowly embedded over ℚ.  External collaborators that
the repository consumes but does not ship under `src/` — the `geometry`
module (Point, DirectionalPoint, Pose), the `fuzz` library
(TrapezoidalFuzzyNumber, FuzzySet), the `Scene.occluded` predicate and the
base `Model.coverage` method — are modelled from the specification's
interface contracts (spec §3, §6) and marked as such in their doc
comments.  The transcendental functions imported from `math` (`sqrt`,
`sin`, `cos`, `atan`, `pi`) are passed in as an explicit record of
rational-valued operations, since no claim depends on their analytic
values, only on the data flow around them.
-/

namespace Adolphus

/-- Python exceptions that the embedded code can raise. -/
inductive Err where
  | valueError
  | nameError
  | keyError
  | zeroDivisionError
  | overflowError
  deriving DecidableEq, Repr

/-- A 3-vector of rationals (coordinate triple). -/
def V3 : Type := ℚ × ℚ × ℚ

instance : DecidableEq V3 := by unfold V3; infer_instance

/-- Modelled from the spec: `geometry.Point` / `geometry.DirectionalPoint`.
A 3D coordinate, optionally annotated with the two direction angles
`(rho, eta)`; `dir = none` is a plain (non-directional) point. -/
structure Pt where
  x : ℚ
  y : ℚ
  z : ℚ
  dir : Option (ℚ × ℚ)
  deriving DecidableEq, Repr

/-- Whether the point is a `DirectionalPoint` (`isinstance` check). -/
def Pt.isDirectional (p : Pt) : Bool := p.dir.isSome

/-- Modelled from the spec: `geometry.Pose`, an invertible rigid transform
given by its forward and inverse actions on positions and on direction
angles, plus its translation component `T` (the reference location used
for occlusion tests).  Mapping preserves plainness/directionality, as
`Pose.map` does in the geometry module. -/
structure QPose where
  fwdP : V3 → V3
  invP : V3 → V3
  fwdD : ℚ × ℚ → ℚ × ℚ
  invD : ℚ × ℚ → ℚ × ℚ
  T : V3

/-- The inverse pose (`-self.pose` in Python). -/
def QPose.neg (p : QPose) : QPose :=
  { fwdP := p.invP, invP := p.fwdP, fwdD := p.invD, invD := p.fwdD,
    T := p.invP (0, 0, 0) }

/-- Apply a pose to a (directional) point (`pose.map(point)`). -/
def QPose.map (p : QPose) (pt : Pt) : Pt :=
  let q := p.fwdP (pt.x, pt.y, pt.z)
  { x := q.1, y := q.2.1, z := q.2.2, dir := pt.dir.map p.fwdD }

/-- The identity pose (`Pose()`). -/
def QPose.id : QPose :=
  { fwdP := fun v => v, invP := fun v => v, fwdD := fun d => d,
    invD := fun d => d, T := (0, 0, 0) }

/-- Rational-valued stand-ins for the functions the code imports from
`math`; no claim depends on their analytic values. -/
structure MathOps where
  sqrt : ℚ → ℚ
  sin : ℚ → ℚ
  cos : ℚ → ℚ
  atan : ℚ → ℚ
  pi : ℚ

/-- Modelled from the spec: `fuzz.TrapezoidalFuzzyNumber`, stored by its
support interval `(a, d)` and kernel (core) interval `(b, c)`. -/
structure Trap where
  a : ℚ
  b : ℚ
  c : ℚ
  d : ℚ
  deriving DecidableEq, Repr

/-- A well-formed trapezoidal fuzzy number: kernel inside support. -/
def Trap.valid (t : Trap) : Prop := t.a ≤ t.b ∧ t.b ≤ t.c ∧ t.c ≤ t.d

instance (t : Trap) : Decidable t.valid := by unfold Trap.valid; infer_instance

/-- Modelled from the spec: piecewise-linear membership — outside support
0, inside core 1, linear ramp between. -/
def Trap.mu (t : Trap) (x : ℚ) : ℚ :=
  if t.b ≤ x ∧ x ≤ t.c then 1
  else if t.a < x ∧ x < t.b then (x - t.a) / (t.b - t.a)
  else if t.c < x ∧ x < t.d then (t.d - x) / (t.d - t.c)
  else 0

theorem Trap.mu_nonneg (t : Trap) (x : ℚ) : 0 ≤ t.mu x := by
  unfold Trap.mu
  split
  · norm_num
  · split
    · next h h' =>
      exact div_nonneg (by linarith [h'.1]) (by linarith [h'.1, h'.2])
    · split
      · next h h' h'' =>
        exact div_nonneg (by linarith [h''.2]) (by linarith [h''.1, h''.2])
      · norm_num

theorem Trap.mu_le_one (t : Trap) (ht : t.valid) (x : ℚ) : t.mu x ≤ 1 := by
  obtain ⟨hab, hbc, hcd⟩ := ht
  unfold Trap.mu
  split
  · norm_num
  · split
    · next h h' =>
      exact (div_le_one (by linarith [h'.1, h'.2])).mpr (by linarith [h'.2])
    · split
      · next h h' h'' =>
        exact (div_le_one (by linarith [h''.1, h''.2])).mpr
          (by linarith [h''.1])
      · norm_num

/-- Embedding of `coverage.Camera`: pose, direction fuzzifier `zeta`, and the three
precomputed trapezoidal fuzzy numbers (per-axis visibility `Cv`,
resolution `Cr`, focus `Cf`) built by the constructor. -/
structure Camera where
  Cv0 : Trap
  Cv1 : Trap
  Cr : Trap
  Cf : Trap
  zeta : ℚ
  pose : QPose

/-- A valid camera configuration: well-formed fuzzy numbers and a nonzero
direction fuzzifier. -/
def Camera.validCfg (c : Camera) : Prop :=
  c.Cv0.valid ∧ c.Cv1.valid ∧ c.Cr.valid ∧ c.Cf.valid ∧ c.zeta ≠ 0

/-- Visibility term of `Camera.mu` (coverage.py lines 106-109): both
per-axis fuzzy numbers are evaluated at `campoint.x / campoint.z` (the
source uses `campoint.x` for both list elements) and the minimum is
taken; a `ZeroDivisionError` at `z = 0` is caught and yields `0.0`. -/
def Camera.visTerm (c : Camera) (cp : Pt) : ℚ :=
  if cp.z = 0 then 0
  else min (c.Cv0.mu (cp.x / cp.z)) (c.Cv1.mu (cp.x / cp.z))

/-- Resolution term of `Camera.mu` (line 112). -/
def Camera.resTerm (c : Camera) (cp : Pt) : ℚ := c.Cr.mu cp.z

/-- Focus term of `Camera.mu` (line 115). -/
def Camera.focTerm (c : Camera) (cp : Pt) : ℚ := c.Cf.mu cp.z

/-- Direction term of `Camera.mu` (lines 118-132): for a directional
camera-frame point, `terma` falls back to `1.0` when `r = 0` and `termb`
to `pi / 2` when `z = 0`; the ramp is clamped into `[0, 1]`.  For a plain
point the term is `1.0`. -/
def Camera.dirTerm (ops : MathOps) (c : Camera) (cp : Pt) : ℚ :=
  match cp.dir with
  | none => 1
  | some (rho, eta) =>
    let r := ops.sqrt (cp.x ^ 2 + cp.y ^ 2)
    let terma := if r = 0 then 1
      else (cp.y / r) * ops.sin eta + (cp.x / r) * ops.cos eta
    let termb := if cp.z = 0 then ops.pi / 2 else ops.atan (r / cp.z)
    min (max ((rho - (ops.pi / 2 + terma * termb)) / c.zeta) 0) 1

/-- Embedding of `Camera.mu` (coverage.py lines 91-135): map the point into the camera
frame by the inverse pose, then return the algebraic product of the four
terms. -/
def Camera.mu (ops : MathOps) (c : Camera) (p : Pt) : ℚ :=
  let campoint := (QPose.neg c.pose).map p
  c.visTerm campoint * c.resTerm campoint * c.focTerm campoint *
    c.dirTerm ops campoint

/-- Embedding of `Camera.mu` with explicit exception behaviour: the only division in
the method body that is not wrapped in a `try/except ZeroDivisionError`
is the division by `self.zeta` in the direction term, executed exactly
when the camera-frame point is directional. -/
def Camera.muE (ops : MathOps) (c : Camera) (p : Pt) : Except Err ℚ :=
  let campoint := (QPose.neg c.pose).map p
  if campoint.isDirectional ∧ c.zeta = 0 then .error .zeroDivisionError
  else .ok (Camera.mu ops c p)

/-- Modelled from the spec: `fuzz.FuzzySet` over point keys, represented
as a finitely-keyed partial map — `none` means the key is absent (omitted
from the set, not present with weight 0). -/
def FS : Type := Pt → Option ℚ

/-- The empty fuzzy set (`FuzzySet()`). -/
def FS.empty : FS := fun _ => none

/-- The singleton fuzzy set (`FuzzySet([FuzzyElement(point, mu)])`). -/
def FS.single (p : Pt) (m : ℚ) : FS :=
  fun q => if q = p then some m else none

/-- Modelled from the spec: fuzzy-set union is the pointwise maximum; a
key present in either operand is present in the result. -/
def optMax : Option ℚ → Option ℚ → Option ℚ
  | none, b => b
  | some x, none => some x
  | some x, some y => some (max x y)

/-- Fuzzy-set union (`|=`, pointwise maximum on keys). -/
def FS.union (s t : FS) : FS := fun q => optMax (s q) (t q)

/-- Modelled from the spec: fuzzy-set intersection is the pointwise
minimum on common keys; a key omitted from either operand is omitted from
the result (an omitted point cannot re-enter via intersection). -/
def FS.inter (s t : FS) : FS := fun q =>
  match s q, t q with
  | some x, some y => some (min x y)
  | _, _ => none

/-- Build a fuzzy set from a list of (key, degree) pairs
(`FuzzySet(mpoints)`). -/
def FS.ofList (l : List (Pt × ℚ)) : FS :=
  fun q => (l.find? (fun e => e.1 = q)).map (·.2)

/-- Embedding of `point in set`: key-presence test. -/
def FS.mem (s : FS) (p : Pt) : Bool := (s p).isSome

/-- Embedding of `set.mu(point)`: the degree of a key, 0 when absent. -/
def FS.muOf (s : FS) (p : Pt) : ℚ := (s p).getD 0

/-- A tracked camera together with its in-scene fuzzy set (the `inscene`
attribute that `MultiCamera` stores on each `Camera` value). -/
structure CamState where
  cam : Camera
  inscene : FS

/-- Embedding of `coverage.MultiCamera`: the camera dictionary (association list with
distinct keys, in insertion order), the ocular degree, the tracked point
set, the scene occlusion predicate (modelled from the spec:
`Scene.occluded(point, reference)`), the aggregated model and its
up-to-date flag. -/
structure MC where
  ocular : ℕ
  cams : List (String × CamState)
  points : List Pt
  occluded : Pt → V3 → Bool
  model : FS
  model_updated : Bool

/-- Dictionary lookup `self[key]`. -/
def MC.lookup (m : MC) (k : String) : Option CamState :=
  (m.cams.find? (fun e => e.1 = k)).map (·.2)

/-- Dictionary assignment `dict.__setitem__`: overwrite in place when the
key exists, otherwise append. -/
def dictSet (l : List (String × CamState)) (k : String) (v : CamState) :
    List (String × CamState) :=
  if l.any (fun e => e.1 = k) then
    l.map (fun e => if e.1 = k then (k, v) else e)
  else l ++ [(k, v)]

/-- Embedding of `self.points.add(point)`: set insertion. -/
def MC.insertPoint (l : List Pt) (p : Pt) : List Pt :=
  if p ∈ l then l else l ++ [p]

/-- The in-scene fuzzy set `update_inscene` builds for one camera
(coverage.py lines 211-216): every tracked point with positive membership
that is not occluded from the camera's reference location, keyed with its
membership degree. -/
def MC.insceneOf (ops : MathOps) (m : MC) (cs : CamState) : FS :=
  FS.ofList (m.points.filterMap (fun p =>
    let mu := Camera.mu ops cs.cam p
    if 0 < mu ∧ ¬ m.occluded p cs.cam.pose.T then some (p, mu) else none))

/-- The effect of `update_inscene(key)` on a single dictionary entry:
the entry named `key` gets its in-scene set rebuilt, the rest are left
alone. -/
def MC.updateEntry (ops : MathOps) (m : MC) (k : String)
    (e : String × CamState) : String × CamState :=
  if e.1 = k then (e.1, { e.2 with inscene := m.insceneOf ops e.2 })
  else e

/-- Embedding of `MultiCamera.update_inscene` (lines 204-217): recompute one camera's
in-scene set from scratch and clear `model_updated`.  (A missing key
raises `KeyError` in Python; the claims only exercise present keys.) -/
def MC.updateInscene (ops : MathOps) (m : MC) (k : String) : MC :=
  { m with
    cams := m.cams.map (m.updateEntry ops k),
    model_updated := false }

/-- The values accepted by `MultiCamera.__setitem__`: a `Camera` object
or anything else. -/
inductive MCValue where
  | camera (c : Camera)
  | other (o : ℕ)

/-- Embedding of `MultiCamera.__setitem__` (lines 176-188): reject non-`Camera` values
with `ValueError` before any mutation; otherwise insert the camera and
update its in-scene set. -/
def MC.setItem (ops : MathOps) (m : MC) (k : String) (v : MCValue) :
    Except Err MC :=
  match v with
  | .other _ => .error .valueError
  | .camera c =>
    let m' := { m with cams := dictSet m.cams k ⟨c, FS.empty⟩ }
    .ok (m'.updateInscene ops k)

/-- The effect of `add_point(point)` on a single dictionary entry: union
the camera's in-scene set with the singleton for the new point when its
membership is positive and it is unoccluded, else leave the entry
alone. -/
def MC.addEntry (ops : MathOps) (m : MC) (p : Pt)
    (e : String × CamState) : String × CamState :=
  if 0 < Camera.mu ops e.2.cam p ∧ ¬ m.occluded p e.2.cam.pose.T then
    (e.1, { e.2 with inscene :=
      e.2.inscene.union (FS.single p (Camera.mu ops e.2.cam p)) })
  else e

/-- Embedding of `MultiCamera.add_point` (lines 190-202): add the point to the tracked
set and update every camera's entry.  The source does not touch
`model_updated`. -/
def MC.addPoint (ops : MathOps) (m : MC) (p : Pt) : MC :=
  { m with
    points := MC.insertPoint m.points p,
    cams := m.cams.map (m.addEntry ops p) }

/-- The intersection of the in-scene sets along one camera combination
(lines 228-230): start from the first camera's set and fold `&=` over the
rest. -/
def MC.submodel : List (String × CamState) → FS
  | [] => FS.empty
  | c :: rest => rest.foldl (fun acc e => acc.inter e.2.inscene) c.2.inscene

/-- Embedding of `MultiCamera.update_model` (lines 219-233): with fewer cameras than
the ocular degree raise `ValueError`; otherwise union the per-combination
intersections over all size-`ocular` combinations of cameras and set
`model_updated`. -/
def MC.updateModel (m : MC) : Except Err MC :=
  if m.cams.length < m.ocular then .error .valueError
  else .ok { m with
    model := ((m.cams.sublistsLen m.ocular).map MC.submodel).foldl
      FS.union FS.empty,
    model_updated := true }

/-- Embedding of `MultiCamera.mu` (lines 235-251): with too few cameras raise
`ValueError`; for a cached point return its cached degree; otherwise the
source evaluates `combinations(self.keys(), n)` where `n` is not bound
anywhere in the module, so Python raises `NameError`. -/
def MC.muE (m : MC) (p : Pt) : Except Err ℚ :=
  if m.cams.length < m.ocular then .error .valueError
  else if m.model.mem p then .ok (m.model.muOf p)
  else .error .nameError

/-- Modelled from the spec: the on-the-fly fallback of `MultiCamera.mu`
as §4.3 mandates it — the maximum over all size-`ocular` camera
combinations of the minimum per-camera membership of the point. -/
def MC.muSpec (ops : MathOps) (m : MC) (p : Pt) : Except Err ℚ :=
  if m.cams.length < m.ocular then .error .valueError
  else if m.model.mem p then .ok (m.model.muOf p)
  else .ok (((m.cams.sublistsLen m.ocular).map (fun comb =>
    (comb.map (fun e => Camera.mu ops e.2.cam p)).foldr min 1)).foldr
    max 0)

/-- Embedding of `MultiCamera.__init__` (lines 157-174): an ocular degree below 1 is
rejected with `ValueError`; otherwise the network starts with no cameras,
the given points, an empty model and a cleared `model_updated` flag. -/
def MC.mk' (ocular : ℤ) (occluded : Pt → V3 → Bool) (points : List Pt) :
    Except Err MC :=
  if ocular < 1 then .error .valueError
  else .ok { ocular := ocular.toNat, cams := [], points := points,
             occluded := occluded, model := FS.empty,
             model_updated := false }

/-! ### Laser range imaging (`laser.py`)

For the transport sweep of `RangeModel.range_coverage`, poses are
composed exclusively as `original_pose + Pose(T=offset)`, so the target's
pose is modelled by its translation component, a `V3`.  The geometric
payload of `project` (laser-plane/triangle intersection, which lives in
the external geometry module) and the inherited `Model.coverage` method
(whose defining module is not shipped under `src/`) are modelled from the
spec as opaque function fields; `project`'s laser-identifier guard
(laser.py lines 209-210) is translated from the source. -/

/-- Componentwise vector sum. -/
def vadd (u v : V3) : V3 := (u.1 + v.1, u.2.1 + v.2.1, u.2.2 + v.2.2)

/-- Componentwise vector difference. -/
def vsub (u v : V3) : V3 := (u.1 - v.1, u.2.1 - v.2.1, u.2.2 - v.2.2)

/-- Scalar multiple. -/
def smul (c : ℚ) (v : V3) : V3 := (c * v.1, c * v.2.1, c * v.2.2)

/-- Dot product (`taxis * vertex` in adolphus geometry). -/
def dot (u v : V3) : ℚ := u.1 * v.1 + u.2.1 * v.2.1 + u.2.2 * v.2.2

/-- Translate a point, leaving any direction annotation unchanged. -/
def Pt.translate (p : Pt) (d : V3) : Pt :=
  { p with x := p.x + d.1, y := p.y + d.2.1, z := p.z + d.2.2 }

/-- Embedding of `laser.RangeModel` state as `range_coverage` consumes it: the set of
laser identifiers, the target's pose (translation) and local-frame
triangle vertices, a rational `sqrt` for axis normalization, and the two
spec-modelled opaque operations. -/
structure RM where
  lasers : List String
  targetPose : V3
  targetTriangles : List (V3 × V3 × V3)
  sqrtQ : ℚ → ℚ
  projectPts : V3 → List Pt
  coverageFn : List Pt → List (Pt × ℚ)

/-- Embedding of `taxis.normal`: the axis scaled to unit length. -/
def RM.normalAxis (m : RM) (v : V3) : V3 :=
  smul (1 / m.sqrtQ (dot v v)) v

/-- Embedding of `RangeModel.project` as `range_coverage` calls it (laser.py lines
193-231): the unknown-laser guard raises `KeyError`; the surviving sweep
points at the current target pose come from the spec-modelled payload. -/
def RM.projectE (m : RM) (laser : String) (pose : V3) :
    Except Err (List Pt) :=
  if laser ∈ m.lasers then .ok (m.projectPts pose) else .error .keyError

/-- Embedding of `cache[point] = value` on a `PointCache`: overwrite an existing key,
else append (last write wins). -/
def setPC (l : List (Pt × ℚ)) (p : Pt) (v : ℚ) : List (Pt × ℚ) :=
  if l.any (fun e => e.1 = p) then
    l.map (fun e => if e.1 = p then (p, v) else e)
  else l ++ [(p, v)]

/-- The transport loop of `range_coverage` (laser.py lines 272-283),
threading the accumulated coverage and task caches and the target's
current pose; an exception escaping an iteration carries the pose the
target held at that moment. -/
def RM.sweep (m : RM) (laser : String) (orig axis : V3) (gv tpitch : ℚ) :
    List ℕ → List (Pt × ℚ) → List (Pt × ℚ) → V3 →
    (Except Err (List (Pt × ℚ) × List (Pt × ℚ))) × V3
  | [], cov, task, pose => (.ok (cov, task), pose)
  | i :: rest, cov, task, _ =>
    let pose' := vadd orig (smul (tpitch * (i : ℚ) - gv) axis)
    match m.projectE laser pose' with
    | .error e => (.error e, pose')
    | .ok pts =>
      let pcov := m.coverageFn pts
      let acc := pcov.foldl (fun st e =>
        let op := e.1.translate (vsub orig pose')
        (setPC st.1 op e.2, setPC st.2 op 1)) (cov, task)
      m.sweep laser orig axis gv tpitch rest acc.1 acc.2 pose'

/-- The projections of the target's mapped triangle vertices onto the
normalized transport axis (laser.py lines 263-270). -/
def RM.vertexProjections (m : RM) (axis : V3) : List ℚ :=
  (m.targetTriangles.map (fun t =>
    [dot axis (vadd t.1 m.targetPose), dot axis (vadd t.2.1 m.targetPose),
     dot axis (vadd t.2.2 m.targetPose)])).flatten

/-- Embedding of `RangeModel.range_coverage` (laser.py lines 233-292): linear
transport only; project the mapped triangle vertices on the normalized
axis to get the sweep extent, run the sweep, and on normal termination
restore the target's original pose (line 290).  An error raised during
the sweep propagates without executing the restore.  Returns the result
(or error) together with the target's pose on exit. -/
def RM.rangeCoverage (m : RM) (laser : String) (tpitch : ℚ) (taxis : V3)
    (tstyle : String) :
    (Except Err (List (Pt × ℚ) × List (Pt × ℚ))) × V3 :=
  if tstyle = "linear" then
    match m.vertexProjections (m.normalAxis taxis) with
    | [] => (.error .overflowError, m.targetPose)
    | v :: vs =>
      match m.sweep laser m.targetPose (m.normalAxis taxis)
        (vs.foldl max v) tpitch
        (List.range (((vs.foldl max v - vs.foldl min v) /
          tpitch).floor.toNat)) [] [] m.targetPose with
      | (.ok res, _) => (.ok res, m.targetPose)
      | (.error e, pose) => (.error e, pose)
  else (.error .valueError, m.targetPose)

/-! ### Concrete fixtures for witnesses and counterexamples -/

/-- Concrete rational-valued math operations. -/
def ops0 : MathOps :=
  { sqrt := fun q => q, sin := fun _ => 0, cos := fun _ => 1,
    atan := fun q => q, pi := 3 }

/-- A wide well-formed trapezoid: support `(-1, 1)`, kernel
`(-1/2, 1/2)`. -/
def trapWide : Trap := ⟨-1, -1/2, 1/2, 1⟩

/-- A trapezoid over depth: support `(0, 3)`, kernel `(0, 2)`. -/
def trapDepth : Trap := ⟨0, 0, 2, 3⟩

/-- A narrow trapezoid: support `(-1/10, 1/10)`, kernel
`(-1/20, 1/20)`. -/
def trapNarrow : Trap := ⟨-1/10, -1/20, 1/20, 1/10⟩

/-- A concrete valid camera at the identity pose. -/
def cam0 : Camera :=
  { Cv0 := trapWide, Cv1 := trapWide, Cr := trapDepth, Cf := trapDepth,
    zeta := 1, pose := QPose.id }

/-- A camera whose vertical visibility trapezoid is much narrower than
its horizontal one. -/
def camAsym : Camera :=
  { Cv0 := trapWide, Cv1 := trapNarrow, Cr := trapDepth, Cf := trapDepth,
    zeta := 1, pose := QPose.id }

/-- The origin: camera-frame depth `z = 0`. -/
def p0 : Pt := ⟨0, 0, 0, none⟩

/-- A plain point on the optical axis at depth 1. -/
def p1 : Pt := ⟨0, 0, 1, none⟩

/-- A point on the optical axis horizontally (`x = 0`) but far off it
vertically (`y = 10`), at depth 1. -/
def pOffAxis : Pt := ⟨0, 10, 1, none⟩

/-! ### C1 — Camera.mu: inverse-pose transform, four-term product,
range -/

/-- Each factor of a product of `[0,1]`-values keeps the product in
`[0,1]`. -/
theorem unitInterval.mul_mem {a b : ℚ} (ha : 0 ≤ a ∧ a ≤ 1)
    (hb : 0 ≤ b ∧ b ≤ 1) : 0 ≤ a * b ∧ a * b ≤ 1 :=
  ⟨mul_nonneg ha.1 hb.1, by nlinarith [ha.1, ha.2, hb.1, hb.2]⟩

theorem Camera.visTerm_mem (c : Camera) (hc : c.validCfg) (cp : Pt) :
    0 ≤ c.visTerm cp ∧ c.visTerm cp ≤ 1 := by
  unfold Camera.visTerm
  split
  · norm_num
  · constructor
    · exact le_min (Trap.mu_nonneg _ _) (Trap.mu_nonneg _ _)
    · exact min_le_of_left_le (Trap.mu_le_one _ hc.1 _)

theorem Camera.resTerm_mem (c : Camera) (hc : c.validCfg) (cp : Pt) :
    0 ≤ c.resTerm cp ∧ c.resTerm cp ≤ 1 :=
  ⟨Trap.mu_nonneg _ _, Trap.mu_le_one _ hc.2.2.1 _⟩

theorem Camera.focTerm_mem (c : Camera) (hc : c.validCfg) (cp : Pt) :
    0 ≤ c.focTerm cp ∧ c.focTerm cp ≤ 1 :=
  ⟨Trap.mu_nonneg _ _, Trap.mu_le_one _ hc.2.2.2.1 _⟩

theorem Camera.dirTerm_mem (ops : MathOps) (c : Camera) (cp : Pt) :
    0 ≤ c.dirTerm ops cp ∧ c.dirTerm ops cp ≤ 1 := by
  unfold Camera.dirTerm
  match cp.dir with
  | none => norm_num
  | some (rho, eta) =>
    refine ⟨le_min (le_max_right _ _) (by norm_num), min_le_right _ _⟩

/-- C1: `Camera.mu` maps the point into the camera frame by the inverse
pose and returns the algebraic product
`mu_visibility * mu_resolution * mu_focus * mu_direction`; for a valid
camera configuration the result lies in `[0, 1]`, and for a plain
(non-directional) point the direction term is `1`. -/
theorem C1_camera_mu_product_range (ops : MathOps) (c : Camera) (p : Pt)
    (hc : c.validCfg) :
    Camera.mu ops c p =
      c.visTerm ((QPose.neg c.pose).map p) *
        c.resTerm ((QPose.neg c.pose).map p) *
        c.focTerm ((QPose.neg c.pose).map p) *
        c.dirTerm ops ((QPose.neg c.pose).map p) ∧
    (0 ≤ Camera.mu ops c p ∧ Camera.mu ops c p ≤ 1) ∧
    (p.dir = none → c.dirTerm ops ((QPose.neg c.pose).map p) = 1) := by
  refine ⟨rfl, ?_, ?_⟩
  · have h1 := c.visTerm_mem hc ((QPose.neg c.pose).map p)
    have h2 := c.resTerm_mem hc ((QPose.neg c.pose).map p)
    have h3 := c.focTerm_mem hc ((QPose.neg c.pose).map p)
    have h4 := Camera.dirTerm_mem ops c ((QPose.neg c.pose).map p)
    exact unitInterval.mul_mem (unitInterval.mul_mem
      (unitInterval.mul_mem h1 h2) h3) h4
  · intro hdir
    simp [Camera.dirTerm, QPose.map, hdir]

/-- Witness for C1 at a concrete valid camera and point. -/
theorem C1_witness :
    cam0.validCfg ∧
      (0 ≤ Camera.mu ops0 cam0 p1 ∧ Camera.mu ops0 cam0 p1 ≤ 1) ∧
      (p1.dir = none →
        cam0.dirTerm ops0 ((QPose.neg cam0.pose).map p1) = 1) :=
  have hc : cam0.validCfg := by
    refine ⟨?_, ?_, ?_, ?_, ?_⟩ <;> first
      | exact (by norm_num : ¬ (1 : ℚ) = 0)
      | (constructor <;> norm_num [trapWide, trapDepth, cam0])
  ⟨hc, (C1_camera_mu_product_range ops0 cam0 p1 hc).2.1,
    (C1_camera_mu_product_range ops0 cam0 p1 hc).2.2⟩

/-! ### C2 — visibility axes: the source evaluates both per-axis fuzzy
numbers at `x/z` -/

/-- Modelled from the spec: the visibility term as §4.1 states it — the
horizontal-axis trapezoid at `x/z`, the vertical-axis trapezoid at
`y/z`, minimum across axes, 0 at `z = 0`. -/
def Camera.specVisTerm (c : Camera) (cp : Pt) : ℚ :=
  if cp.z = 0 then 0
  else min (c.Cv0.mu (cp.x / cp.z)) (c.Cv1.mu (cp.y / cp.z))

/-- C2 failing input: at the camera-frame point `(0, 10, 1)` the source's
visibility term (both axes evaluated at `x/z = 0`, coverage.py line 107)
is `1`, while the per-axis evaluation the claim states (vertical axis at
`y/z = 10`, far outside the narrow vertical trapezoid) is `0`; the whole
membership degree differs accordingly. -/
theorem C2_visibility_axis_bug :
    camAsym.visTerm pOffAxis = 1 ∧
    camAsym.specVisTerm pOffAxis = 0 ∧
    Camera.mu ops0 camAsym pOffAxis = 1 := by
  refine ⟨?_, ?_, ?_⟩ <;>
    norm_num [Camera.mu, Camera.visTerm, Camera.specVisTerm,
      Camera.resTerm, Camera.focTerm, Camera.dirTerm, Trap.mu, camAsym,
      trapWide, trapNarrow, trapDepth, pOffAxis, ops0, QPose.id,
      QPose.neg, QPose.map]

/-! ### C8 — division-by-zero guards inside Camera.mu -/

/-- Embedding of `terma` of the direction computation (coverage.py lines 120-124),
with its `ZeroDivisionError` fallback to `1.0` at `r = 0`. -/
def Camera.terma (ops : MathOps) (cp : Pt) (eta : ℚ) : ℚ :=
  let r := ops.sqrt (cp.x ^ 2 + cp.y ^ 2)
  if r = 0 then 1
  else (cp.y / r) * ops.sin eta + (cp.x / r) * ops.cos eta

/-- Embedding of `termb` of the direction computation (lines 125-128), with its
`ZeroDivisionError` fallback to `pi / 2` at `z = 0`. -/
def Camera.termb (ops : MathOps) (cp : Pt) : ℚ :=
  let r := ops.sqrt (cp.x ^ 2 + cp.y ^ 2)
  if cp.z = 0 then ops.pi / 2 else ops.atan (r / cp.z)

/-- The direction term decomposes through `terma` and `termb`. -/
theorem Camera.dirTerm_eq (ops : MathOps) (c : Camera) (cp : Pt)
    (rho eta : ℚ) (h : cp.dir = some (rho, eta)) :
    c.dirTerm ops cp =
      min (max ((rho - (ops.pi / 2 + Camera.terma ops cp eta *
        Camera.termb ops cp)) / c.zeta) 0) 1 := by
  unfold Camera.dirTerm Camera.terma Camera.termb
  rw [h]

/-- C8: the division sites of `Camera.mu` are guarded — visibility is `0`
at `z = 0`, `terma` falls back to `1` when `r = 0`, `termb` falls back to
`pi / 2` when `z = 0` — and for a camera with a nonzero direction
fuzzifier `Camera.mu` returns normally (no propagated
`ZeroDivisionError`). -/
theorem C8_division_guards (ops : MathOps) (c : Camera) (p : Pt)
    (hz : c.zeta ≠ 0) :
    (∀ cp : Pt, cp.z = 0 → c.visTerm cp = 0) ∧
    (∀ (cp : Pt) (eta : ℚ), ops.sqrt (cp.x ^ 2 + cp.y ^ 2) = 0 →
      Camera.terma ops cp eta = 1) ∧
    (∀ cp : Pt, cp.z = 0 → Camera.termb ops cp = ops.pi / 2) ∧
    Camera.muE ops c p = .ok (Camera.mu ops c p) := by
  refine ⟨?_, ?_, ?_, ?_⟩
  · intro cp h
    simp [Camera.visTerm, h]
  · intro cp eta h
    simp [Camera.terma, h]
  · intro cp h
    simp [Camera.termb, h]
  · unfold Camera.muE
    rw [if_neg]
    intro h
    exact hz h.2

/-- Witness for C8 at a concrete camera and point. -/
theorem C8_witness :
    cam0.zeta ≠ 0 ∧
      Camera.muE ops0 cam0 p0 = .ok (Camera.mu ops0 cam0 p0) :=
  have hz : cam0.zeta ≠ 0 := by norm_num [cam0]
  ⟨hz, (C8_division_guards ops0 cam0 p0 hz).2.2.2⟩

/-! ### C10 — MultiCamera.__setitem__ rejects non-Camera values -/

/-- C10: assigning a value that is not a `Camera` raises `ValueError`
before `dict.__setitem__` or any in-scene update runs, so no state is
produced and the network is unchanged. -/
theorem C10_setitem_rejects_non_camera (ops : MathOps) (m : MC)
    (k : String) (o : ℕ) :
    MC.setItem ops m k (.other o) = .error .valueError := rfl

/-! ### C3 — MultiCamera.mu recompute fallback references an unbound
name -/

/-- A 1-ocular network with a single camera, no cached model. -/
def mc3 : MC :=
  { ocular := 1, cams := [("a", ⟨cam0, FS.empty⟩)], points := [],
    occluded := fun _ _ => false, model := FS.empty,
    model_updated := false }

/-- C3 failing input: a 1-ocular network with one camera queried at a
point absent from the cached model.  The guard and the cache test pass it
to the recompute branch, where `combinations(self.keys(), n)` references
the unbound name `n` (coverage.py line 251) and Python raises
`NameError`; the spec-mandated recompute with the configured ocular
degree would return the point's membership `1`. -/
theorem C3_mu_unbound_variable :
    mc3.ocular ≤ mc3.cams.length ∧
    mc3.model.mem p1 = false ∧
    MC.muE mc3 p1 = .error .nameError ∧
    MC.muSpec ops0 mc3 p1 = .ok 1 := by
  refine ⟨by norm_num [mc3], rfl, ?_, ?_⟩
  · simp [MC.muE, mc3, FS.mem, FS.empty]
  · have h1 : Camera.mu ops0 cam0 p1 = 1 := by
      norm_num [Camera.mu, Camera.visTerm, Camera.resTerm,
        Camera.focTerm, Camera.dirTerm, Trap.mu, cam0, trapWide,
        trapDepth, p1, ops0, QPose.id, QPose.neg, QPose.map]
    simp [MC.muSpec, mc3, FS.mem, FS.empty, List.sublistsLen_succ_cons,
      List.sublistsLen_zero, List.sublistsLen_succ_nil, h1]

/-! ### C5 — dirty-flag discipline -/

/-- C5 failing input: after a successful `update_model` on `mc3` the flag
`model_updated` is `True`; `__setitem__` clears it (via
`update_inscene`) and `update_model` sets it, as the claim states, but
`add_point` leaves it untouched — it is still `True` after `add_point`,
although the claim requires the model to be marked dirty. -/
theorem C5_addpoint_skips_dirty_flag :
    (MC.setItem ops0 mc3 "b" (.camera cam0)).map
      (fun m => m.model_updated) = .ok false ∧
    (MC.updateModel mc3).map (fun m => m.model_updated) = .ok true ∧
    (MC.updateModel mc3).map
      (fun m => (MC.addPoint ops0 m p1).model_updated) = .ok true := by
  refine ⟨rfl, rfl, rfl⟩

/-! ### C6 — configuration errors -/

/-- C6: an ocular degree below 1 is rejected by the constructor with
`ValueError`, and both `update_model` and `mu` raise `ValueError`
whenever the network has fewer cameras than its ocular degree. -/
theorem C6_too_few_cameras :
    (∀ o : ℤ, o < 1 → ∀ (occ : Pt → V3 → Bool) (pts : List Pt),
      MC.mk' o occ pts = .error .valueError) ∧
    (∀ m : MC, m.cams.length < m.ocular →
      MC.updateModel m = .error .valueError ∧
      ∀ p, MC.muE m p = .error .valueError) := by
  constructor
  · intro o ho occ pts
    unfold MC.mk'
    rw [if_pos ho]
  · intro m h
    refine ⟨?_, fun p => ?_⟩
    · unfold MC.updateModel
      rw [if_pos h]
    · unfold MC.muE
      rw [if_pos h]

/-- A 1-ocular network with no cameras. -/
def mc6 : MC :=
  { ocular := 1, cams := [], points := [],
    occluded := fun _ _ => false, model := FS.empty,
    model_updated := false }

/-- Witness for C6: the constructor rejects `ocular = 0`, and a 1-ocular
network with no cameras errors in `update_model` and `mu`. -/
theorem C6_witness :
    ((0 : ℤ) < 1 ∧
      MC.mk' 0 (fun _ _ => false) [] = .error .valueError) ∧
    (mc6.cams.length < mc6.ocular ∧
      MC.updateModel mc6 = .error .valueError ∧
      MC.muE mc6 p1 = .error .valueError) :=
  have h0 : (0 : ℤ) < 1 := by norm_num
  have h6 : mc6.cams.length < mc6.ocular := by norm_num [mc6]
  ⟨⟨h0, C6_too_few_cameras.1 0 h0 (fun _ _ => false) []⟩,
    ⟨h6, (C6_too_few_cameras.2 mc6 h6).1,
      (C6_too_few_cameras.2 mc6 h6).2 p1⟩⟩

/-! ### C7 — with `ocular = 1` the model is the union of the in-scene
sets -/

instance : Std.Commutative optMax :=
  ⟨by intro a b; cases a <;> cases b <;> simp [optMax, max_comm]⟩

instance : Std.Associative optMax :=
  ⟨by intro a b c; cases a <;> cases b <;> cases c <;>
    simp [optMax, max_assoc]⟩

theorem FS.foldl_union_apply (l : List FS) (s : FS) (q : Pt) :
    (l.foldl FS.union s) q = (l.map (fun f => f q)).foldl optMax (s q) := by
  induction l generalizing s with
  | nil => rfl
  | cons f t ih =>
    simp only [List.foldl_cons, List.map_cons, ih]
    rfl

/-- C7: on a network with `ocular = 1` and at least one camera,
`update_model` succeeds and the aggregated model is the pointwise-maximum
union of all individual cameras' in-scene sets. -/
theorem C7_ocular_one_model_is_union (m : MC) (h1 : m.ocular = 1)
    (h2 : m.cams ≠ []) :
    ∃ m', MC.updateModel m = .ok m' ∧
      ∀ q, m'.model q =
        (m.cams.map (fun e => e.2.inscene q)).foldl optMax none := by
  have hlen : ¬ m.cams.length < m.ocular := by
    rw [h1]
    simpa [Nat.lt_one_iff, List.length_eq_zero] using h2
  refine ⟨_, by unfold MC.updateModel; rw [if_neg hlen], ?_⟩
  intro q
  show (((m.cams.sublistsLen m.ocular).map MC.submodel).foldl FS.union
    FS.empty) q = _
  rw [h1, List.sublistsLen_one, FS.foldl_union_apply]
  simp only [List.map_map]
  have hfun : ((fun f : FS => f q) ∘ MC.submodel ∘ fun e => [e]) =
      (fun e : String × CamState => e.2.inscene q) := by
    funext e
    rfl
  rw [hfun, List.map_reverse, List.foldl_reverse]
  show List.foldr (fun x y => optMax y x) (FS.empty q) _ = _
  have hflip : (fun x y => optMax y x) = optMax := by
    funext a b
    cases a <;> cases b <;> simp [optMax, max_comm]
  rw [hflip]
  exact (List.foldl_eq_foldr _ _).symm

/-- A 1-ocular single-camera network whose camera has a nonempty
in-scene set. -/
def mc7 : MC :=
  { ocular := 1, cams := [("a", ⟨cam0, FS.single p1 1⟩)], points := [p1],
    occluded := fun _ _ => false, model := FS.empty,
    model_updated := false }

/-- Witness for C7 on a concrete 1-ocular network. -/
theorem C7_witness :
    mc7.ocular = 1 ∧ mc7.cams ≠ [] ∧
    ∃ m', MC.updateModel mc7 = .ok m' ∧
      ∀ q, m'.model q =
        (mc7.cams.map (fun e => e.2.inscene q)).foldl optMax none :=
  have hne : mc7.cams ≠ [] := by simp [mc7]
  ⟨rfl, hne, C7_ocular_one_model_is_union mc7 rfl hne⟩

/-! ### C4 — occlusion/membership filtering of the in-scene sets -/

theorem find?_map_keyfix (f : String × CamState → String × CamState)
    (hf : ∀ e, (f e).1 = e.1) (l : List (String × CamState))
    (k : String) :
    (l.map f).find? (fun e => e.1 = k) =
      (l.find? (fun e => e.1 = k)).map f := by
  induction l with
  | nil => rfl
  | cons e t ih =>
    by_cases h : e.1 = k
    · rw [List.map_cons, List.find?_cons_of_pos _ (by simp [hf e, h]),
        List.find?_cons_of_pos _ (by simp [h])]
      rfl
    · rw [List.map_cons, List.find?_cons_of_neg _ (by simp [hf e, h]),
        List.find?_cons_of_neg _ (by simp [h])]
      exact ih

theorem MC.lookup_eq_some (m : MC) (k : String) (cs : CamState)
    (h : m.lookup k = some cs) :
    ∃ ek, m.cams.find? (fun e => e.1 = k) = some ek ∧
      ek.1 = k ∧ ek.2 = cs := by
  unfold MC.lookup at h
  cases hf : m.cams.find? (fun e => e.1 = k) with
  | none => rw [hf] at h; exact absurd h (by simp)
  | some ek =>
    rw [hf] at h
    refine ⟨ek, rfl, ?_, by simpa using h⟩
    have := List.find?_some hf
    simpa using this

theorem FS.ofList_cons (e : Pt × ℚ) (l : List (Pt × ℚ)) (p : Pt) :
    FS.ofList (e :: l) p =
      if e.1 = p then some e.2 else FS.ofList l p := by
  by_cases h : e.1 = p
  · rw [if_pos h]
    unfold FS.ofList
    rw [List.find?_cons_of_pos _ (by simp [h])]
    rfl
  · rw [if_neg h]
    unfold FS.ofList
    rw [List.find?_cons_of_neg _ (by simp [h])]

theorem FS.ofList_filterMap_neg (cond : Pt → Prop) [DecidablePred cond]
    (wt : Pt → ℚ) (pts : List Pt) (p : Pt) (h : ¬ cond p) :
    FS.ofList (pts.filterMap
      (fun q => if cond q then some (q, wt q) else none)) p = none := by
  induction pts with
  | nil => rfl
  | cons q t ih =>
    rw [List.filterMap_cons]
    by_cases hq : cond q
    · rw [if_pos hq, FS.ofList_cons]
      have hqp : q ≠ p := fun he => h (he ▸ hq)
      rw [if_neg hqp]
      exact ih
    · rw [if_neg hq]
      exact ih

theorem FS.ofList_filterMap_pos (cond : Pt → Prop) [DecidablePred cond]
    (wt : Pt → ℚ) (pts : List Pt) (p : Pt) (hc : cond p)
    (hp : p ∈ pts) :
    FS.ofList (pts.filterMap
      (fun q => if cond q then some (q, wt q) else none)) p =
      some (wt p) := by
  induction pts with
  | nil => cases hp
  | cons q t ih =>
    rw [List.filterMap_cons]
    by_cases hqp : q = p
    · subst hqp
      rw [if_pos hc, FS.ofList_cons, if_pos rfl]
    · have hpt : p ∈ t := by
        cases hp with
        | head => exact absurd rfl hqp
        | tail _ h' => exact h'
      by_cases hq : cond q
      · rw [if_pos hq, FS.ofList_cons, if_neg hqp]
        exact ih hpt
      · rw [if_neg hq]
        exact ih hpt

theorem MC.updateEntry_fst (ops : MathOps) (m : MC) (k : String)
    (e : String × CamState) : (m.updateEntry ops k e).1 = e.1 := by
  unfold MC.updateEntry
  split <;> rfl

theorem MC.addEntry_fst (ops : MathOps) (m : MC) (p : Pt)
    (e : String × CamState) : (m.addEntry ops p e).1 = e.1 := by
  unfold MC.addEntry
  split <;> rfl

theorem MC.updateInscene_lookup (ops : MathOps) (m : MC) (k : String)
    (cs : CamState) (h : m.lookup k = some cs) :
    (m.updateInscene ops k).lookup k =
      some { cs with inscene := m.insceneOf ops cs } := by
  obtain ⟨ek, hfind, hk, hcs⟩ := m.lookup_eq_some k cs h
  unfold MC.updateInscene MC.lookup
  dsimp only
  rw [find?_map_keyfix _ (m.updateEntry_fst ops k), hfind]
  simp only [Option.map_some']
  unfold MC.updateEntry
  rw [if_pos hk, hcs]

theorem MC.addPoint_lookup (ops : MathOps) (m : MC) (p : Pt) (k : String)
    (cs : CamState) (h : m.lookup k = some cs) :
    (m.addPoint ops p).lookup k =
      some (if 0 < Camera.mu ops cs.cam p ∧
          ¬ m.occluded p cs.cam.pose.T then
        { cs with inscene :=
            cs.inscene.union (FS.single p (Camera.mu ops cs.cam p)) }
      else cs) := by
  obtain ⟨ek, hfind, hk, hcs⟩ := m.lookup_eq_some k cs h
  unfold MC.addPoint MC.lookup
  dsimp only
  rw [find?_map_keyfix _ (m.addEntry_fst ops p), hfind]
  simp only [Option.map_some']
  unfold MC.addEntry
  rw [hcs]
  by_cases hc : 0 < Camera.mu ops cs.cam p ∧ ¬ m.occluded p cs.cam.pose.T
  · rw [if_pos hc, if_pos hc]
  · rw [if_neg hc, if_neg hc, hcs]

/-- C4 (amended): after `update_inscene`, every tracked point is present
in that camera's in-scene set exactly when its membership is positive
and it is not occluded from the camera's reference location, keyed with
its membership degree; the same holds for the point given to
`add_point`, provided it was not already a key of that camera's in-scene
set (when it was, `add_point` merely unions the old entry with the new
singleton and an existing entry survives even when the current
membership is zero or the point is occluded). -/
theorem C4_inscene_occlusion_filter (ops : MathOps) (m : MC) (k : String)
    (cs : CamState) (p : Pt) (hcs : m.lookup k = some cs) :
    (p ∈ m.points →
      ((m.updateInscene ops k).lookup k).map (fun cs' => cs'.inscene p) =
        some (if 0 < Camera.mu ops cs.cam p ∧
            ¬ m.occluded p cs.cam.pose.T then
          some (Camera.mu ops cs.cam p) else none)) ∧
    (cs.inscene p = none →
      ((m.addPoint ops p).lookup k).map (fun cs' => cs'.inscene p) =
        some (if 0 < Camera.mu ops cs.cam p ∧
            ¬ m.occluded p cs.cam.pose.T then
          some (Camera.mu ops cs.cam p) else none)) := by
  constructor
  · intro hp
    rw [MC.updateInscene_lookup ops m k cs hcs]
    simp only [Option.map_some']
    congr 1
    show m.insceneOf ops cs p = _
    unfold MC.insceneOf
    by_cases hc : 0 < Camera.mu ops cs.cam p ∧
        ¬ m.occluded p cs.cam.pose.T
    · rw [if_pos hc]
      exact FS.ofList_filterMap_pos
        (fun q => 0 < Camera.mu ops cs.cam q ∧
          ¬ m.occluded q cs.cam.pose.T)
        (fun q => Camera.mu ops cs.cam q) m.points p hc hp
    · rw [if_neg hc]
      exact FS.ofList_filterMap_neg
        (fun q => 0 < Camera.mu ops cs.cam q ∧
          ¬ m.occluded q cs.cam.pose.T)
        (fun q => Camera.mu ops cs.cam q) m.points p hc
  · intro hfresh
    rw [MC.addPoint_lookup ops m p k cs hcs]
    by_cases hc : 0 < Camera.mu ops cs.cam p ∧
        ¬ m.occluded p cs.cam.pose.T
    · rw [if_pos hc, if_pos hc]
      simp [FS.union, FS.single, hfresh, optMax]
    · rw [if_neg hc, if_neg hc]
      simp [hfresh]

/-- A 1-ocular single-camera network tracking the point `p1`. -/
def mc4 : MC :=
  { ocular := 1, cams := [("a", ⟨cam0, FS.empty⟩)], points := [p1],
    occluded := fun _ _ => false, model := FS.empty,
    model_updated := false }

/-- Witness for C4 on a concrete network: both branches applied with
every hypothesis discharged. -/
theorem C4_witness :
    mc4.lookup "a" = some ⟨cam0, FS.empty⟩ ∧ p1 ∈ mc4.points ∧
    (⟨cam0, FS.empty⟩ : CamState).inscene p1 = none ∧
    ((mc4.updateInscene ops0 "a").lookup "a").map
        (fun cs' => cs'.inscene p1) =
      some (if 0 < Camera.mu ops0 cam0 p1 ∧
          ¬ mc4.occluded p1 cam0.pose.T then
        some (Camera.mu ops0 cam0 p1) else none) ∧
    ((mc4.addPoint ops0 p1).lookup "a").map
        (fun cs' => cs'.inscene p1) =
      some (if 0 < Camera.mu ops0 cam0 p1 ∧
          ¬ mc4.occluded p1 cam0.pose.T then
        some (Camera.mu ops0 cam0 p1) else none) :=
  have hmem : p1 ∈ mc4.points := by simp [mc4]
  ⟨rfl, hmem, rfl,
    (C4_inscene_occlusion_filter ops0 mc4 "a" ⟨cam0, FS.empty⟩ p1
      rfl).1 hmem,
    (C4_inscene_occlusion_filter ops0 mc4 "a" ⟨cam0, FS.empty⟩ p1
      rfl).2 rfl⟩

/-- A network whose camera's in-scene set already holds `p0` with weight
1, although `p0`'s current membership is 0 (its camera-frame depth is
0). -/
def mStale : MC :=
  { ocular := 1, cams := [("a", ⟨cam0, FS.single p0 1⟩)], points := [p0],
    occluded := fun _ _ => false, model := FS.empty,
    model_updated := false }

/-- C4 counterexample: `p0` has membership 0 for the camera and is not
occluded from it, yet after `add_point(p0)` it is still present in the
camera's in-scene set (with its stale weight 1) — the claim requires it
to be absent after `add_point`. -/
theorem C4_counterexample :
    ¬ (0 < Camera.mu ops0 cam0 p0) ∧
    mStale.occluded p0 cam0.pose.T = false ∧
    ((mStale.addPoint ops0 p0).lookup "a").map
      (fun cs' => cs'.inscene p0) = some (some 1) := by
  have hmu : Camera.mu ops0 cam0 p0 = 0 := by
    norm_num [Camera.mu, Camera.visTerm, Camera.resTerm, Camera.focTerm,
      Camera.dirTerm, Trap.mu, cam0, trapWide, trapDepth, p0, ops0,
      QPose.id, QPose.neg, QPose.map]
  refine ⟨by rw [hmu]; exact lt_irrefl 0, rfl, ?_⟩
  rw [MC.addPoint_lookup ops0 mStale p0 "a" ⟨cam0, FS.single p0 1⟩ rfl]
  rw [if_neg (by rw [hmu]; exact fun h => lt_irrefl 0 h.1)]
  simp [FS.single]

/-! ### C9 — pose restoration in range_coverage -/

/-- C9 (amended): whenever `range_coverage` returns normally the target's
pose on exit equals its pose on entry (the restore on laser.py line 290
runs on every non-exceptional path, including zero-step sweeps and the
rejected transport styles); this does not extend to exceptional early
termination — see the counterexample. -/
theorem C9_pose_restored_on_normal_return (m : RM) (laser : String)
    (tpitch : ℚ) (taxis : V3) (tstyle : String)
    (h : ((m.rangeCoverage laser tpitch taxis tstyle).1).isOk = true) :
    (m.rangeCoverage laser tpitch taxis tstyle).2 = m.targetPose := by
  rcases hE : m.rangeCoverage laser tpitch taxis tstyle with ⟨res, pose⟩
  rw [hE] at h
  unfold RM.rangeCoverage at hE
  split at hE
  · split at hE
    · cases hE
      rfl
    · split at hE
      · cases hE
        rfl
      · cases hE
        simp [Except.isOk, Except.toBool] at h
  · cases hE
    rfl

/-- A concrete range model: one laser `"L"`, the target at the origin
with one triangle spanning 0 to 2 along the z-axis, and trivial
projection/coverage payloads. -/
def rm9 : RM :=
  { lasers := ["L"], targetPose := ((0 : ℚ), (0 : ℚ), (0 : ℚ)),
    targetTriangles := [(((0 : ℚ), (0 : ℚ), (0 : ℚ)),
      ((0 : ℚ), (0 : ℚ), (1 : ℚ)), ((0 : ℚ), (0 : ℚ), (2 : ℚ)))],
    sqrtQ := fun q => q, projectPts := fun _ => [],
    coverageFn := fun _ => [] }

/-- Witness for C9: a sweep with the valid laser `"L"` returns normally
and the target's pose on exit is its original pose. -/
theorem C9_witness :
    ((rm9.rangeCoverage "L" 1 (0, 0, 1) "linear").1).isOk = true ∧
    (rm9.rangeCoverage "L" 1 (0, 0, 1) "linear").2 = rm9.targetPose :=
  have h : ((rm9.rangeCoverage "L" 1 (0, 0, 1) "linear").1).isOk =
      true := by
    norm_num [RM.rangeCoverage, RM.vertexProjections, RM.sweep,
      RM.projectE, RM.normalAxis, rm9, dot, smul, vadd, vsub,
      List.range_succ, Except.isOk, Except.toBool]
  ⟨h, C9_pose_restored_on_normal_return rm9 "L" 1 (0, 0, 1) "linear" h⟩

/-- C9 counterexample: calling `range_coverage` with the unknown laser
id `"X"` raises `KeyError` out of `project` in the first sweep
iteration, after the target has already been moved; the restore is
skipped, so the pose after the call is `(0, 0, -2)`, not the original
`(0, 0, 0)`. -/
theorem C9_counterexample :
    (rm9.rangeCoverage "X" 1 (0, 0, 1) "linear").1 =
      .error .keyError ∧
    (rm9.rangeCoverage "X" 1 (0, 0, 1) "linear").2 =
      ((0 : ℚ), (0 : ℚ), (-2 : ℚ)) ∧
    (rm9.rangeCoverage "X" 1 (0, 0, 1) "linear").2 ≠ rm9.targetPose := by
  have hXL : (("X" : String) = "L") = False :=
    eq_false (by decide)
  have h1 : (rm9.rangeCoverage "X" 1 (0, 0, 1) "linear").1 =
      .error .keyError := by
    norm_num [RM.rangeCoverage, RM.vertexProjections, RM.sweep,
      RM.projectE, RM.normalAxis, rm9, dot, smul, vadd, vsub,
      List.range_succ, hXL]
  have h2 : (rm9.rangeCoverage "X" 1 (0, 0, 1) "linear").2 =
      ((0 : ℚ), (0 : ℚ), (-2 : ℚ)) := by
    norm_num [RM.rangeCoverage, RM.vertexProjections, RM.sweep,
      RM.projectE, RM.normalAxis, rm9, dot, smul, vadd, vsub,
      List.range_succ, hXL]
  refine ⟨h1, h2, ?_⟩
  rw [h2]
  intro hc
  have h3 := congrArg (fun v : ℚ × ℚ × ℚ => v.2.2) hc
  norm_num [rm9] at h3

end Adolphus
